import Mathlib

/-!
Verification of the claude-usage core: credential-store round-trip,
OAuth token refresh with bounded retry, usage-response parsing, and the
weekly-statistics reconciliation logic.

The definitions below are shallow embeddings of the Go sources:
  - `internal/stats/parser.go`  (UpdateRefreshToken)
  - `internal/api/client.go`    (RefreshAccessToken, fetchRateLimitsWithRetry,
                                 parseUsageResponse, maxRetries)
  - `internal/stats/weekly.go`  (planLimits, GetWeeklyLimit, GetWeekBounds,
                                 CalculateWeeklyStats, GetPercentage)
  - `internal/stats/models.go`  (data structures)
  - the app orchestration file (fetchAndApplyRateLimits)

Modelling conventions:
  - Go `float64` values are embedded as exact rationals (`ℚ`); the claims
    under study are robust under this idealisation because every float
    operation involved (multiply / divide by 100, compare, truncate) is
    monotone in its argument.
  - Go `int`/`int64` values are embedded as `ℤ`; where a multiplication can
    overflow int64 the wrap-around is made explicit (`int64Wrap`).
  - Go's `int(x)` conversion of a float truncates toward zero.
  - File-system and HTTP effects are made explicit: file contents are
    `String`s, HTTP exchanges are oracle functions from call index to
    response, and side effects of the token-refresh path are recorded in an
    explicit effects record.
-/

namespace ClaudeUsage

/-! ## JSON document model

Go's `encoding/json` unmarshals an untyped document into
`map[string]interface` trees.  We model the fragment exercised by the
credentials documents: objects, arrays, strings without escape sequences,
integer-valued numbers, booleans and null.  A Go map is unordered with
unique keys (on duplicate keys the last one wins) and `json.Marshal`
prints object keys in sorted order; we therefore keep object fields as
key-sorted association lists, the canonical representation of such a map.
-/

inductive Json where
  | null : Json
  | bool (b : Bool) : Json
  | num (n : Int) : Json
  | str (s : String) : Json
  | arr (elems : List Json) : Json
  | obj (fields : List (String × Json)) : Json

/-- Lookup of a key in an object's field list (first match wins). -/
def objGet (fields : List (String × Json)) (k : String) : Option Json :=
  match fields with
  | [] => none
  | (k', v) :: rest => if k' = k then some v else objGet rest k

/-- Byte-wise (code-point-wise) strict order on strings, as used by Go when
`json.Marshal` sorts map keys.  For UTF-8 encoded strings the byte order
coincides with the code-point order. -/
def charsLt : List Char → List Char → Bool
  | [], [] => false
  | [], _ :: _ => true
  | _ :: _, [] => false
  | a :: as, b :: bs => if a.val < b.val then true else if b.val < a.val then false else charsLt as bs

def strLtB (a b : String) : Bool := charsLt a.data b.data

/-- Go map assignment `m[k] = v` on the canonical sorted representation:
replace the entry if the key is present, otherwise insert in key order. -/
def objInsert (fields : List (String × Json)) (k : String) (v : Json) : List (String × Json) :=
  match fields with
  | [] => [(k, v)]
  | (k', v') :: rest =>
    if k = k' then (k, v) :: rest
    else if strLtB k k' then (k, v) :: (k', v') :: rest
    else (k', v') :: objInsert rest k v

/-! ### Marshalling (json.Marshal)

Compact output, object keys already in sorted order by the canonical
representation.  The modelled string fragment contains no characters that
`encoding/json` escapes. -/

def quoteStr (s : String) : String := "\"" ++ s ++ "\""

mutual

def goMarshal : Json → String
  | .null => "null"
  | .bool b => cond b "true" "false"
  | .num n => toString n
  | .str s => quoteStr s
  | .arr elems => "[" ++ goMarshalArr elems ++ "]"
  | .obj fields => "\x7b" ++ goMarshalObj fields ++ "\x7d"

def goMarshalArr : List Json → String
  | [] => ""
  | [x] => goMarshal x
  | x :: y :: rest => goMarshal x ++ "," ++ goMarshalArr (y :: rest)

def goMarshalObj : List (String × Json) → String
  | [] => ""
  | [(k, v)] => quoteStr k ++ ":" ++ goMarshal v
  | (k, v) :: f :: rest => quoteStr k ++ ":" ++ goMarshal v ++ "," ++ goMarshalObj (f :: rest)

end

/-! ### Unmarshalling (json.Unmarshal into an untyped tree)

A fuel-indexed recursive-descent parser for the modelled fragment.
Whitespace is the JSON whitespace set; numbers are integer-valued;
strings contain no escapes.  Object fields go through `objInsert`, giving
Go-map semantics (duplicate keys: last wins; order forgotten). -/

def isWs (c : Char) : Bool := c = ' ' ∨ c = '\t' ∨ c = '\n' ∨ c = '\r'

def skipWs : List Char → List Char
  | [] => []
  | c :: cs => if isWs c then skipWs cs else c :: cs

def isDigitCh (c : Char) : Bool := '0' ≤ c ∧ c ≤ '9'

/-- Parse a non-empty run of decimal digits. -/
def parseDigits : List Char → Option (Nat × List Char)
  | [] => none
  | c :: cs =>
    if isDigitCh c then
      match parseDigits cs with
      | some (n, rest) =>
        some (goDigitsVal (c.toNat - '0'.toNat) n cs rest, rest)
      | none => some (c.toNat - '0'.toNat, cs)
    else none
where
  /-- Value of the digit run: fold the already-parsed tail back in. -/
  goDigitsVal (d : Nat) (tailVal : Nat) (cs rest : List Char) : Nat :=
    d * 10 ^ (cs.length - rest.length) + tailVal

/-- Parse the remainder of a string literal, the opening quote already
consumed.  The modelled fragment has no escape sequences: a backslash is
rejected. -/
def parseStrBody : List Char → Option (List Char × List Char)
  | [] => none
  | c :: cs =>
    if c = '"' then some ([], cs)
    else if c = '\\' then none
    else match parseStrBody cs with
      | some (body, rest) => some (c :: body, rest)
      | none => none

mutual

def parseValue : Nat → List Char → Option (Json × List Char)
  | 0, _ => none
  | fuel + 1, cs =>
    match skipWs cs with
    | [] => none
    | c :: cs' =>
      if c = '"' then
        match parseStrBody cs' with
        | some (body, rest) => some (.str (String.mk body), rest)
        | none => none
      else if c = '[' then
        match skipWs cs' with
        | ']' :: rest => some (.arr [], rest)
        | cs'' => parseArrTail fuel cs'' []
      else if c = '\x7b' then
        match skipWs cs' with
        | '\x7d' :: rest => some (.obj [], rest)
        | cs'' => parseObjTail fuel cs'' []
      else if c = 't' then
        match cs' with
        | 'r' :: 'u' :: 'e' :: rest => some (.bool true, rest)
        | _ => none
      else if c = 'f' then
        match cs' with
        | 'a' :: 'l' :: 's' :: 'e' :: rest => some (.bool false, rest)
        | _ => none
      else if c = 'n' then
        match cs' with
        | 'u' :: 'l' :: 'l' :: rest => some (.null, rest)
        | _ => none
      else if c = '-' then
        match parseDigits cs' with
        | some (n, rest) => some (.num (-(n : Int)), rest)
        | none => none
      else if isDigitCh c then
        match parseDigits (c :: cs') with
        | some (n, rest) => some (.num (n : Int), rest)
        | none => none
      else none

def parseArrTail : Nat → List Char → List Json → Option (Json × List Char)
  | 0, _, _ => none
  | fuel + 1, cs, acc =>
    match parseValue fuel cs with
    | none => none
    | some (v, rest) =>
      match skipWs rest with
      | ',' :: rest' => parseArrTail fuel rest' (acc ++ [v])
      | ']' :: rest' => some (.arr (acc ++ [v]), rest')
      | _ => none

def parseObjTail : Nat → List Char → List (String × Json) → Option (Json × List Char)
  | 0, _, _ => none
  | fuel + 1, cs, acc =>
    match skipWs cs with
    | '"' :: cs' =>
      match parseStrBody cs' with
      | none => none
      | some (keyBody, afterKey) =>
        match skipWs afterKey with
        | ':' :: cs'' =>
          match parseValue fuel cs'' with
          | none => none
          | some (v, rest) =>
            match skipWs rest with
            | ',' :: rest' => parseObjTail fuel rest' (objInsert acc (String.mk keyBody) v)
            | '\x7d' :: rest' => some (.obj (objInsert acc (String.mk keyBody) v), rest')
            | _ => none
        | _ => none
    | _ => none

end

/-- Model of `json.Unmarshal` into an untyped tree: the whole input must be
one JSON value surrounded by optional whitespace. -/
def goUnmarshal (s : String) : Option Json :=
  match parseValue (2 * s.data.length + 2) s.data with
  | some (v, rest) => if skipWs rest = [] then some v else none
  | none => none

/-! ## Credential Store Adapter (`UpdateRefreshToken`, parser.go)

The Go function reads the file, unmarshals into `map[string]interface`,
requires a `claudeAiOauth` object member, assigns its `refreshToken` key,
marshals the tree back (compact, sorted keys) and atomically replaces the
file with the marshalled bytes.  The value-level transformation and the
byte-level file transformation are separated below; I/O failures
(read/stat/temp-file/rename) are outside the modelled state. -/

/-- Effect of `UpdateRefreshToken` on the parsed document tree. -/
def UpdateRefreshTokenDoc (doc : Json) (newRefreshToken : String) : Except String Json :=
  match doc with
  | .obj fields =>
    match objGet fields "claudeAiOauth" with
    | some (.obj oauthFields) =>
      .ok (.obj (objInsert fields "claudeAiOauth"
        (.obj (objInsert oauthFields "refreshToken" (.str newRefreshToken)))))
    | _ => .error "claudeAiOauth section not found or invalid"
  | _ => .error "claudeAiOauth section not found or invalid"

/-- Effect of `UpdateRefreshToken` on the file contents: unmarshal
(a non-object top level fails to unmarshal into a Go map), transform,
marshal.  The returned string is the new file content after the atomic
rename. -/
def UpdateRefreshTokenFile (content : String) (newRefreshToken : String) :
    Except String String :=
  match goUnmarshal content with
  | none => .error "failed to parse credentials file"
  | some (.obj fields) =>
    match UpdateRefreshTokenDoc (.obj fields) newRefreshToken with
    | .ok doc' => .ok (goMarshal doc')
    | .error e => .error e
  | some _ => .error "failed to parse credentials file"

/-- Decides whether `out` can be obtained from `orig` by replacing one
occurrence of the byte run `old` with `new` and keeping every other byte
unchanged.  This is the formal content of "all other parts of the file are
byte-identical; exactly the refresh-token leaf changed". -/
def existsLeafReplacement (orig old new out : List Char) : Bool :=
  (List.range (orig.length + 1)).any fun i =>
    decide ((orig.drop i).take old.length = old) &&
    decide (out = orig.take i ++ new ++ (orig.drop i).drop old.length)

/-! ## Rate-Limit Client (`internal/api/client.go`)

HTTP traffic is modelled by oracles: the n-th call to the usage endpoint
receives `net.usage n`, the n-th call to the token endpoint receives
`net.refresh n`.  Only response shapes the code inspects are modelled;
bodies that fail to decode are not exercised by the claims and are elided.
Wall-clock readings (`time.Now()`) are passed in as a parameter `now`.
RFC 3339 timestamp strings are abstracted to their parse result
(`some t` when parsable), since no claim depends on the text format. -/

/-- One usage window of the `/api/oauth/usage` response; `utilization` is
the raw 0-100 number from the wire. -/
structure UsageWindow where
  utilization : ℚ
  resetsAt : Option ℤ

/-- Decoded body of a successful usage response (`usageResponse`). -/
structure UsageResponse where
  fiveHour : UsageWindow
  sevenDay : UsageWindow
  sevenDayOpus : Option UsageWindow
  sevenDaySonnet : Option UsageWindow

/-- RateLimitData from the api package; utilizations are stored as 0.0-1.0
fractions, zero-valued reset instants stand for Go's zero `time.Time`. -/
structure RateLimitData where
  fiveHourUtilization : ℚ
  weeklyUtilization : ℚ
  fiveHourReset : ℤ
  weeklyReset : ℤ
  representativeClaim : String
  status : String
  opusUtilization : ℚ
  sonnetUtilization : ℚ
  opusReset : ℤ
  sonnetReset : ℤ
  fetchedAt : ℤ

/-- Shallow embedding of `parseUsageResponse` (client.go). -/
def parseUsageResponse (now : ℤ) (usage : UsageResponse) : RateLimitData :=
  let fiveHourUtilization := usage.fiveHour.utilization / 100
  let weeklyUtilization := usage.sevenDay.utilization / 100
  let fiveHourReset := match usage.fiveHour.resetsAt with | some t => t | none => 0
  let weeklyReset := match usage.sevenDay.resetsAt with | some t => t | none => 0
  let opusUtilization := match usage.sevenDayOpus with
    | some w => w.utilization / 100
    | none => 0
  let opusReset := match usage.sevenDayOpus with
    | some w => match w.resetsAt with | some t => t | none => 0
    | none => 0
  let sonnetUtilization := match usage.sevenDaySonnet with
    | some w => w.utilization / 100
    | none => 0
  let sonnetReset := match usage.sevenDaySonnet with
    | some w => match w.resetsAt with | some t => t | none => 0
    | none => 0
  let representativeClaim :=
    if fiveHourUtilization > weeklyUtilization then "five_hour" else "seven_day"
  let status :=
    if fiveHourUtilization ≥ 1 ∨ weeklyUtilization ≥ 1 then "throttled" else "allowed"
  { fiveHourUtilization := fiveHourUtilization
    weeklyUtilization := weeklyUtilization
    fiveHourReset := fiveHourReset
    weeklyReset := weeklyReset
    representativeClaim := representativeClaim
    status := status
    opusUtilization := opusUtilization
    sonnetUtilization := sonnetUtilization
    opusReset := opusReset
    sonnetReset := sonnetReset
    fetchedAt := now }

/-- Decoded body of a 200 response from the token endpoint
(`tokenRefreshResponse`); absent optional fields are empty strings. -/
structure TokenRefreshResponse where
  accessToken : String
  tokenType : String
  expiresIn : ℤ
  refreshToken : String
  scope : String

/-- Outcome of one HTTP exchange with the token endpoint. -/
inductive RefreshHttp where
  | ok (resp : TokenRefreshResponse)
  | errStatus (code : ℕ) (body : String)

/-- Outcome of one HTTP exchange with the usage endpoint. -/
inductive UsageHttp where
  | ok (resp : UsageResponse)
  | unauthorized
  | errStatus (code : ℕ) (body : String)

/-- The remote endpoints, as oracles indexed by call count. -/
structure Network where
  usage : ℕ → UsageHttp
  refresh : ℕ → RefreshHttp

/-- Mutable state of `api.Client`: the held token pair. -/
structure Client where
  token : String
  refreshToken : String

/-- Side effects performed by `RefreshAccessToken` besides mutating the
client, recorded explicitly so their presence or absence is provable:
whether `stats.UpdateRefreshToken` was invoked on the credentials file,
whether a caller-supplied rotation callback was invoked, and whether the
`NEW_REFRESH_TOKEN_WARNING.txt` file next to the binary was written. -/
structure RefreshEffects where
  updatedCredentialsFile : Bool
  rotationCallbackInvoked : Bool
  wroteWarningFile : Bool
deriving DecidableEq, Repr

/-- Shallow embedding of `RefreshAccessToken` (client.go).  On a 200
response it adopts the new access token; if the response carries a
non-empty refresh token different from the one just used, the client's
in-memory refresh token is replaced and a warning file is written next to
the executable.  The source contains no call to `UpdateRefreshToken` and
no rotation-callback mechanism, so those two effect flags are constantly
false on every path. -/
def RefreshAccessToken (c : Client) (resp : RefreshHttp) :
    Except String (String × Client × RefreshEffects) :=
  if c.refreshToken = "" then .error "no refresh token available"
  else
    match resp with
    | .errStatus _ _ => .error "token refresh failed"
    | .ok r =>
      let c1 : Client := { c with token := r.accessToken }
      if r.refreshToken ≠ "" ∧ r.refreshToken ≠ c.refreshToken then
        .ok (r.accessToken, { c1 with refreshToken := r.refreshToken },
          { updatedCredentialsFile := false
            rotationCallbackInvoked := false
            wroteWarningFile := true })
      else
        .ok (r.accessToken, c1,
          { updatedCredentialsFile := false
            rotationCallbackInvoked := false
            wroteWarningFile := false })

/-- The retry ceiling (`maxRetries`, client.go). -/
def maxRetries : ℕ := 5

/-- Errors surfaced by `fetchRateLimitsWithRetry`. -/
inductive FetchError where
  | noToken
  | maxRetriesExceeded (ceiling : ℕ)
  | noRefreshTokenAvailable
  | refreshFailed
  | apiStatus (code : ℕ)
deriving DecidableEq, Repr

/-- Result of a fetch call chain, together with the number of token-refresh
exchanges performed and the final client state. -/
structure FetchOutcome where
  result : Except FetchError RateLimitData
  refreshAttempts : ℕ
  finalClient : Client

/-- Shallow embedding of `fetchRateLimitsWithRetry` (client.go).  `attempt`
is the retry counter, `uIdx`/`rIdx` index the successive calls to the two
endpoints, `rCount` counts refresh exchanges performed so far. -/
def fetchRateLimitsWithRetry (now : ℤ) (net : Network) (c : Client)
    (attempt uIdx rIdx rCount : ℕ) : FetchOutcome :=
  if c.token = "" then ⟨.error .noToken, rCount, c⟩
  else
    match net.usage uIdx with
    | .unauthorized =>
      if _h : maxRetries ≤ attempt then ⟨.error (.maxRetriesExceeded maxRetries), rCount, c⟩
      else if c.refreshToken = "" then ⟨.error .noRefreshTokenAvailable, rCount, c⟩
      else
        match RefreshAccessToken c (net.refresh rIdx) with
        | .error _ => ⟨.error .refreshFailed, rCount + 1, c⟩
        | .ok (newToken, c', _effects) =>
          fetchRateLimitsWithRetry now net { c' with token := newToken }
            (attempt + 1) (uIdx + 1) (rIdx + 1) (rCount + 1)
    | .errStatus code _ => ⟨.error (.apiStatus code), rCount, c⟩
    | .ok u => ⟨.ok (parseUsageResponse now u), rCount, c⟩
termination_by maxRetries - attempt
decreasing_by
  simp only [maxRetries] at *
  omega

/-- Shallow embedding of `FetchRateLimits`: start the chain at attempt 0. -/
def FetchRateLimits (now : ℤ) (net : Network) (c : Client) : FetchOutcome :=
  fetchRateLimitsWithRetry now net c 0 0 0 0

/-! ## Time model

Go `time.Time` instants relevant to the weekly logic are UTC instants at
nanosecond resolution.  We represent one as a day number since 1970-01-01
UTC plus the nanosecond within that day.  `time.Date` normalises
out-of-range day-of-month arguments, so subtracting `n` from the
day-of-month argument is exactly day arithmetic. -/

structure GoTime where
  days : ℤ
  nano : ℤ
deriving DecidableEq, Repr

/-- Go `t.Before(u)` on the day/nano representation. -/
def goTimeBefore (a b : GoTime) : Bool :=
  a.days < b.days ∨ (a.days = b.days ∧ a.nano < b.nano)

/-- Non-strict instant order, used to state containment of an instant in a
week window. -/
def goTimeLe (a b : GoTime) : Bool :=
  a.days < b.days ∨ (a.days = b.days ∧ a.nano ≤ b.nano)

/-- Go `t.Weekday()` as a function of the day number: 1970-01-01 was a
Thursday and Go numbers Sunday = 0, …, Saturday = 6. -/
def goWeekday (days : ℤ) : ℤ := (days + 4) % 7

/-- Days-since-1970 of a civil date (proleptic Gregorian), the classical
era-based algorithm.  All divisions below act on non-negative operands for
the four-digit years produced by `goParseDate`. -/
def daysFromCivil (y m d : ℤ) : ℤ :=
  let y' := if m ≤ 2 then y - 1 else y
  let era := (if 0 ≤ y' then y' else y' - 399) / 400
  let yoe := y' - era * 400
  let mp := (m + 9) % 12
  let doy := (153 * mp + 2) / 5 + (d - 1)
  let doe := yoe * 365 + yoe / 4 - yoe / 100 + doy
  era * 146097 + (doe - 719468)

def isLeapYear (y : ℤ) : Bool := y % 4 = 0 ∧ (y % 100 ≠ 0 ∨ y % 400 = 0)

def daysInMonth (y m : ℤ) : ℤ :=
  if m = 1 ∨ m = 3 ∨ m = 5 ∨ m = 7 ∨ m = 8 ∨ m = 10 ∨ m = 12 then 31
  else if m = 4 ∨ m = 6 ∨ m = 9 ∨ m = 11 then 30
  else if m = 2 then (if isLeapYear y then 29 else 28)
  else 0

def digitVal (c : Char) : ℤ := (c.toNat : ℤ) - ('0'.toNat : ℤ)

/-- Shallow embedding of `time.Parse("2006-01-02", s)`: exactly the shape
`YYYY-MM-DD` with the month and day-of-month range-checked, yielding the
civil date. -/
def goParseDate (s : String) : Option (ℤ × ℤ × ℤ) :=
  match s.data with
  | [y1, y2, y3, y4, h1, m1, m2, h2, d1, d2] =>
    if isDigitCh y1 ∧ isDigitCh y2 ∧ isDigitCh y3 ∧ isDigitCh y4 ∧ h1 = '-' ∧
        isDigitCh m1 ∧ isDigitCh m2 ∧ h2 = '-' ∧ isDigitCh d1 ∧ isDigitCh d2 then
      let y := 1000 * digitVal y1 + 100 * digitVal y2 + 10 * digitVal y3 + digitVal y4
      let m := 10 * digitVal m1 + digitVal m2
      let d := 10 * digitVal d1 + digitVal d2
      if 1 ≤ m ∧ m ≤ 12 ∧ 1 ≤ d ∧ d ≤ daysInMonth y m then some (y, m, d) else none
    else none
  | _ => none

/-! ## Usage Cache Aggregator and Usage Reconciler
(`internal/stats/weekly.go`, `internal/stats/models.go`) -/

/-- Token usage per model for a single day (models.go); the per-model map
is carried as an association list. -/
structure DailyModelTokens where
  date : String
  tokensByModel : List (String × ℤ)

/-- The slice of `stats-cache.json` that `CalculateWeeklyStats` consults;
the remaining fields of the Go struct (version, daily activity, aggregate
model usage, session/message counts) are never read by the functions under
verification and are omitted. -/
structure StatsCache where
  dailyModelTokens : List DailyModelTokens

/-- OAuth credential fields (models.go). -/
structure OAuthCredentials where
  accessToken : String
  refreshToken : String
  expiresAt : ℤ
  scopes : List String
  subscriptionType : String
  rateLimitTier : String

structure Credentials where
  claudeAiOauth : OAuthCredentials

/-- The reconciled weekly statistics (models.go). -/
structure WeeklyStats where
  weekStart : GoTime
  weekEnd : GoTime
  tokensByModel : List (String × ℤ)
  totalTokens : ℤ
  subscriptionType : String
  rateLimitTier : String
  fiveHourUtilization : ℚ
  weeklyUtilization : ℚ
  fiveHourReset : ℤ
  weeklyReset : ℤ
  rateLimitStatus : String
  representativeClaim : String
  opusUtilization : ℚ
  sonnetUtilization : ℚ
  opusReset : ℤ
  sonnetReset : ℤ
  hasAPIData : Bool

/-- Known weekly token limits by plan type (the `planLimits` map,
weekly.go). -/
def planLimits (plan : String) : Option ℤ :=
  match plan with
  | "default_claude_pro" => some 45000000
  | "default_claude_max_5x" => some 225000000
  | "default_claude_max_20x" => some 900000000
  | "pro" => some 45000000
  | "max_5x" => some 225000000
  | "team" => some 225000000
  | "team_max_5x" => some 225000000
  | "enterprise" => some 500000000
  | "free" => some 8000000
  | _ => none

/-- Shallow embedding of `GetWeeklyLimit` (weekly.go): rate-limit tier
first, then subscription type, then the `pro` default. -/
def GetWeeklyLimit (subscriptionType rateLimitTier : String) : ℤ :=
  match (if rateLimitTier ≠ "" then planLimits rateLimitTier else none) with
  | some limit => limit
  | none =>
    match (if subscriptionType ≠ "" then planLimits subscriptionType else none) with
    | some limit => limit
    | none => 45000000

/-- Shallow embedding of `GetWeekBounds` (weekly.go), with the current
instant passed in for `time.Now().UTC()`. -/
def GetWeekBounds (now : GoTime) : GoTime × GoTime :=
  let weekday := goWeekday now.days
  let weekday := if weekday = 0 then 7 else weekday
  let daysFromMonday := weekday - 1
  let start : GoTime := ⟨now.days - daysFromMonday, 0⟩
  let stop : GoTime := ⟨start.days + 6, 86399999999999⟩
  (start, stop)

/-- Go `stats.TokensByModel[model] += tokens` on the association-list
representation of the map. -/
def bumpModelTokens (m : List (String × ℤ)) (model : String) (tokens : ℤ) :
    List (String × ℤ) :=
  match m with
  | [] => [(model, tokens)]
  | (k, v) :: rest =>
    if k = model then (k, v + tokens) :: rest
    else (k, v) :: bumpModelTokens rest model tokens

/-- Fold one day's per-model token counts into the accumulated
(per-model totals, total) pair. -/
def sumDayTokens (acc : List (String × ℤ) × ℤ) (day : List (String × ℤ)) :
    List (String × ℤ) × ℤ :=
  day.foldl (fun a kv => (bumpModelTokens a.1 kv.1 kv.2, a.2 + kv.2)) acc

/-- One step of the aggregation loop of `CalculateWeeklyStats`: parse the
entry's date, skip it when unparsable or outside the week window,
otherwise sum its tokens. -/
def weeklyStep (weekStart weekEnd : GoTime) (acc : List (String × ℤ) × ℤ)
    (daily : DailyModelTokens) : List (String × ℤ) × ℤ :=
  match goParseDate daily.date with
  | none => acc
  | some (y, m, d) =>
    let date : GoTime := ⟨daysFromCivil y m d, 0⟩
    if goTimeBefore date weekStart ∨ goTimeBefore weekEnd date then acc
    else sumDayTokens acc daily.tokensByModel

/-- Shallow embedding of `CalculateWeeklyStats` (weekly.go), with the
current instant passed in for `time.Now()`.  API-sourced fields start at
their Go zero values and `hasAPIData` at false. -/
def CalculateWeeklyStats (now : GoTime) (cache : Option StatsCache)
    (creds : Option Credentials) : WeeklyStats :=
  let bounds := GetWeekBounds now
  let subscriptionType := match creds with
    | some cr => cr.claudeAiOauth.subscriptionType
    | none => ""
  let rateLimitTier := match creds with
    | some cr => cr.claudeAiOauth.rateLimitTier
    | none => ""
  let totals := match cache with
    | none => ([], 0)
    | some cache => cache.dailyModelTokens.foldl (weeklyStep bounds.1 bounds.2) ([], 0)
  { weekStart := bounds.1
    weekEnd := bounds.2
    tokensByModel := totals.1
    totalTokens := totals.2
    subscriptionType := subscriptionType
    rateLimitTier := rateLimitTier
    fiveHourUtilization := 0
    weeklyUtilization := 0
    fiveHourReset := 0
    weeklyReset := 0
    rateLimitStatus := ""
    representativeClaim := ""
    opusUtilization := 0
    sonnetUtilization := 0
    opusReset := 0
    sonnetReset := 0
    hasAPIData := false }

/-- Go `int(x)` conversion of a float, truncation toward zero.  For a
rational `q` with positive denominator, `q.num.tdiv q.den` is exactly the
truncation toward zero of `q`. -/
def goTrunc (q : ℚ) : ℤ := q.num.tdiv q.den

/-- Two's-complement wrap-around of signed 64-bit multiplication results;
`GetPercentage` multiplies an `int64` token count by 100. -/
def int64Wrap (x : ℤ) : ℤ := (x + 2 ^ 63) % 2 ^ 64 - 2 ^ 63

/-- Shallow embedding of `GetPercentage` (weekly.go).  `dayRand` stands for
the day-seeded `rand.Intn(100)` placeholder taken when no plan limit
resolves; it is kept as an explicit parameter so its (un)reachability is
provable.  The Go method's nil-receiver guard (returning 0) is outside the
value-level model. -/
def GetPercentage (w : WeeklyStats) (dayRand : ℤ) : ℤ :=
  if w.hasAPIData ∧ w.weeklyUtilization > 0 then
    let percentage := goTrunc (w.weeklyUtilization * 100)
    let percentage := if percentage > 99 then 99 else percentage
    if percentage < 0 then 0 else percentage
  else if w.totalTokens = 0 then 0
  else
    let limit := GetWeeklyLimit w.subscriptionType w.rateLimitTier
    if limit = 0 then dayRand
    else
      let percentage := (int64Wrap (w.totalTokens * 100)).tdiv limit
      let percentage := if percentage < 0 then 0 else percentage
      if percentage > 99 then 99 else percentage

/-- Pure part of `fetchAndApplyRateLimits` (app orchestration): copy the
fetched `RateLimitData` into the weekly stats.  The token totals and the
subscription fields are not touched. -/
def applyRateLimits (w : WeeklyStats) (r : RateLimitData) : WeeklyStats :=
  { w with
    hasAPIData := true
    fiveHourUtilization := r.fiveHourUtilization
    weeklyUtilization := r.weeklyUtilization
    fiveHourReset := r.fiveHourReset
    weeklyReset := r.weeklyReset
    rateLimitStatus := r.status
    representativeClaim := r.representativeClaim
    opusUtilization := r.opusUtilization
    sonnetUtilization := r.sonnetUtilization
    opusReset := r.opusReset
    sonnetReset := r.sonnetReset }

/-- Decides whether an aggregation entry contributes to the weekly totals:
its date parses and lies inside the week window. -/
def entryContributes (weekStart weekEnd : GoTime) (daily : DailyModelTokens) : Bool :=
  match goParseDate daily.date with
  | none => false
  | some (y, m, d) =>
    let date : GoTime := ⟨daysFromCivil y m d, 0⟩
    !(goTimeBefore date weekStart || goTimeBefore weekEnd date)

/-! ## Concrete instances used in witnesses and counterexamples -/

/-- A weekly-stats value with every field at its Go zero value. -/
def wkBase : WeeklyStats :=
  { weekStart := ⟨0, 0⟩
    weekEnd := ⟨0, 0⟩
    tokensByModel := []
    totalTokens := 0
    subscriptionType := ""
    rateLimitTier := ""
    fiveHourUtilization := 0
    weeklyUtilization := 0
    fiveHourReset := 0
    weeklyReset := 0
    rateLimitStatus := ""
    representativeClaim := ""
    opusUtilization := 0
    sonnetUtilization := 0
    opusReset := 0
    sonnetReset := 0
    hasAPIData := false }

/-- API data present, weekly utilization 37.5 percent. -/
def wkApiTrunc : WeeklyStats := { wkBase with hasAPIData := true, weeklyUtilization := 0.375 }

/-- API data present, weekly utilization 200 percent. -/
def wkApiTwo : WeeklyStats := { wkBase with hasAPIData := true, weeklyUtilization := 2 }

/-- API data present with zero weekly utilization, while the cache shows a
full pro-plan week of tokens. -/
def wkCachePro : WeeklyStats :=
  { wkBase with hasAPIData := true, subscriptionType := "pro", totalTokens := 45000000 }

/-- API data present with zero weekly utilization and an empty cache. -/
def wkCacheZeroTok : WeeklyStats := { wkBase with hasAPIData := true, subscriptionType := "pro" }

/-- A client holding a token pair. -/
def exClient : Client := ⟨"token-initial", "refresh-initial"⟩

/-- A successful token-endpoint response carrying a rotated refresh token. -/
def exRefreshResp : TokenRefreshResponse :=
  ⟨"token-refreshed", "Bearer", 28800, "refresh-rotated", "user:inference"⟩

/-- A network where the usage endpoint always answers 401 and the token
endpoint always succeeds. -/
def exNet : Network := { usage := fun _ => .unauthorized, refresh := fun _ => .ok exRefreshResp }

/-- Client state before a rotation event. -/
def rotClient : Client := ⟨"access-old", "refresh-old"⟩

/-- A 200 token-refresh response whose refresh token differs from the one
just used — a rotation event. -/
def rotResponse : RefreshHttp := .ok ⟨"access-new", "Bearer", 28800, "refresh-new", "user:inference"⟩

/-- A credentials file: the expected OAuth object plus an unrelated
`mcpOAuth` sibling section, written with whitespace between tokens. -/
def credsOrig : String :=
  "\x7b \"claudeAiOauth\": \x7b\"accessToken\": \"A\", \"refreshToken\": \"old\"\x7d, \"mcpOAuth\": \x7b\"plugin\": 1\x7d \x7d"

/-- The file content produced by `UpdateRefreshTokenFile credsOrig "NEW"`:
a compact re-serialisation. -/
def credsOut : String :=
  "\x7b\"claudeAiOauth\":\x7b\"accessToken\":\"A\",\"refreshToken\":\"NEW\"\x7d,\"mcpOAuth\":\x7b\"plugin\":1\x7d\x7d"

/-- The parsed top-level fields of `credsOrig`. -/
def credsFields : List (String × Json) :=
  [("claudeAiOauth", .obj [("accessToken", .str "A"), ("refreshToken", .str "old")]),
   ("mcpOAuth", .obj [("plugin", .num 1)])]

/-- The parsed `claudeAiOauth` member of `credsOrig`. -/
def credsOAuthFields : List (String × Json) :=
  [("accessToken", .str "A"), ("refreshToken", .str "old")]

/-! ## Helper lemmas -/

theorem planLimits_pos (plan : String) (limit : ℤ) (h : planLimits plan = some limit) :
    0 < limit := by
  unfold planLimits at h
  split at h <;> simp_all <;> omega

theorem GetWeeklyLimit_pos (subscriptionType rateLimitTier : String) :
    0 < GetWeeklyLimit subscriptionType rateLimitTier := by
  unfold GetWeeklyLimit
  split
  case _ limit heq =>
    split at heq
    · exact planLimits_pos _ _ heq
    · exact absurd heq (by simp)
  case _ heq =>
    split
    case _ limit heq2 =>
      split at heq2
      · exact planLimits_pos _ _ heq2
      · exact absurd heq2 (by simp)
    case _ => norm_num

theorem goTrunc_eq_floor (q : ℚ) (h : 0 ≤ q) : goTrunc q = ⌊q⌋ := by
  unfold goTrunc
  rw [Int.tdiv_eq_ediv (Rat.num_nonneg.mpr h) (by positivity)]
  exact Rat.floor_def.symm

theorem goTrunc_nonneg (q : ℚ) (h : 0 ≤ q) : 0 ≤ goTrunc q := by
  rw [goTrunc_eq_floor q h]
  exact Int.floor_nonneg.mpr h

theorem goTrunc_mono (q r : ℚ) (h0 : 0 ≤ q) (h : q ≤ r) : goTrunc q ≤ goTrunc r := by
  rw [goTrunc_eq_floor q h0, goTrunc_eq_floor r (le_trans h0 h)]
  exact Int.floor_le_floor h

/-- Every value of `GetPercentage` lies in `[0, 99]`; in particular the
day-seeded placeholder branch is unreachable because `GetWeeklyLimit`
never returns zero. -/
theorem GetPercentage_mem_range (w : WeeklyStats) (dayRand : ℤ) :
    0 ≤ GetPercentage w dayRand ∧ GetPercentage w dayRand ≤ 99 := by
  have hL := GetWeeklyLimit_pos w.subscriptionType w.rateLimitTier
  simp only [GetPercentage]
  split_ifs <;> omega

/-- On the branch with API data and positive weekly utilization,
`GetPercentage` computes the clamped truncation of `utilization * 100`. -/
theorem GetPercentage_api_eq (w : WeeklyStats) (dayRand : ℤ) (h1 : w.hasAPIData = true)
    (h2 : 0 < w.weeklyUtilization) :
    GetPercentage w dayRand = min 99 (max 0 (goTrunc (w.weeklyUtilization * 100))) := by
  simp only [GetPercentage]
  rw [if_pos ⟨h1, h2⟩]
  split_ifs <;> omega

/-! ## Claim C10 -/

/-- C10: `GetWeeklyLimit` returns a strictly positive limit for every pair
of subscription-type and rate-limit-tier strings — 45,000,000 when neither
matches a known tier — so the `limit == 0` branch of `GetPercentage` that
would return a day-seeded pseudo-random percentage is unreachable: the
result never depends on that placeholder value. -/
theorem getWeeklyLimit_always_resolves :
    (∀ subscriptionType rateLimitTier : String,
      0 < GetWeeklyLimit subscriptionType rateLimitTier) ∧
    (∀ subscriptionType rateLimitTier : String,
      planLimits subscriptionType = none → planLimits rateLimitTier = none →
      GetWeeklyLimit subscriptionType rateLimitTier = 45000000) ∧
    (∀ (w : WeeklyStats) (dayRand₁ dayRand₂ : ℤ),
      GetPercentage w dayRand₁ = GetPercentage w dayRand₂) := by
  refine ⟨GetWeeklyLimit_pos, ?_, ?_⟩
  · intro subscriptionType rateLimitTier h1 h2
    unfold GetWeeklyLimit
    simp [h1, h2]
  · intro w dayRand₁ dayRand₂
    have hL := GetWeeklyLimit_pos w.subscriptionType w.rateLimitTier
    simp only [GetPercentage]
    split_ifs <;> omega

/-- Witness for C10 on a pair of unrecognised plan strings. -/
theorem getWeeklyLimit_always_resolves_witness :
    GetWeeklyLimit "plus" "custom_tier" = 45000000 :=
  getWeeklyLimit_always_resolves.2.1 "plus" "custom_tier" rfl rfl

/-! ## Claim C4 -/

/-- C4 counterexample: at API weekly utilization 0.375 the code returns 37
— `int(u * 100)` truncates — while the claimed `clamp(round(u*100), 0, 99)`
is 38. -/
theorem getPercentage_truncates_counterexample :
    wkApiTrunc.hasAPIData = true ∧ 0 < wkApiTrunc.weeklyUtilization ∧
    GetPercentage wkApiTrunc 0 = 37 ∧
    min 99 (max 0 (round (wkApiTrunc.weeklyUtilization * 100))) = 38 := by
  have hu : wkApiTrunc.weeklyUtilization = 0.375 := rfl
  refine ⟨rfl, by rw [hu]; norm_num, ?_, ?_⟩
  · rw [GetPercentage_api_eq wkApiTrunc 0 rfl (by rw [hu]; norm_num)]
    have h100 : wkApiTrunc.weeklyUtilization * 100 = 75 / 2 := by rw [hu]; norm_num
    rw [h100]
    have htr : goTrunc (75 / 2 : ℚ) = 37 := by
      rw [goTrunc_eq_floor _ (by norm_num)]; norm_num
    rw [htr]
    norm_num
  · rw [hu]
    norm_num [round_eq]

/-- C4 (amended): for API data with weekly utilization > 0, `GetPercentage`
returns `clamp(trunc(utilization * 100), 0, 99)` where `trunc` truncates
toward zero (not rounding to nearest); for utilization 1.00 it returns 99;
and 100 is never returned for any input. -/
theorem getPercentage_api_clamped_truncation :
    (∀ (w : WeeklyStats) (dayRand : ℤ), w.hasAPIData = true → 0 < w.weeklyUtilization →
      GetPercentage w dayRand = min 99 (max 0 (goTrunc (w.weeklyUtilization * 100)))) ∧
    (∀ (w : WeeklyStats) (dayRand : ℤ), w.hasAPIData = true → w.weeklyUtilization = 1 →
      GetPercentage w dayRand = 99) ∧
    (∀ (w : WeeklyStats) (dayRand : ℤ), GetPercentage w dayRand ≠ 100) := by
  refine ⟨GetPercentage_api_eq, ?_, ?_⟩
  · intro w dayRand h1 h2
    rw [GetPercentage_api_eq w dayRand h1 (by rw [h2]; norm_num), h2]
    have htr : goTrunc ((1 : ℚ) * 100) = 100 := by
      rw [goTrunc_eq_floor _ (by norm_num)]; norm_num
    rw [htr]
    omega
  · intro w dayRand
    have := GetPercentage_mem_range w dayRand
    omega

/-- Witness for C4 at API weekly utilization 2. -/
theorem getPercentage_api_clamped_truncation_witness :
    GetPercentage wkApiTwo 0 = min 99 (max 0 (goTrunc (wkApiTwo.weeklyUtilization * 100))) :=
  getPercentage_api_clamped_truncation.1 wkApiTwo 0 rfl (by decide)

/-! ## Claim C6 -/

/-- C6 counterexample: with API data present, weekly utilization 0 falls
through to the cache-based estimate (99 for a full pro week) while
utilization 1/2 reports 50 from the API branch — `GetPercentage` is not
non-decreasing in the utilization on `[0, +∞)`. -/
theorem getPercentage_not_monotone_at_zero :
    wkCachePro.weeklyUtilization ≤ (1 / 2 : ℚ) ∧
    GetPercentage { wkCachePro with weeklyUtilization := 1 / 2 } 0 <
      GetPercentage wkCachePro 0 := by
  constructor
  · show (0 : ℚ) ≤ 1 / 2
    norm_num
  · have h99 : GetPercentage wkCachePro 0 = 99 := by decide
    have h50 : GetPercentage { wkCachePro with weeklyUtilization := 1 / 2 } 0 = 50 := by
      rw [GetPercentage_api_eq _ 0 rfl (by norm_num)]
      have h100 : ({ wkCachePro with weeklyUtilization := 1 / 2 } : WeeklyStats).weeklyUtilization
          * 100 = 50 := by
        show (1 / 2 : ℚ) * 100 = 50
        norm_num
      rw [h100]
      have htr : goTrunc (50 : ℚ) = 50 := by
        rw [goTrunc_eq_floor _ (by norm_num)]; norm_num
      rw [htr]
      omega
    omega

/-- C6 (amended): `GetPercentage`, as a function of the API weekly
utilization with all other fields held fixed, is non-decreasing on the
strictly positive utilizations (at utilization 0 the function falls back
to the cache estimate, where monotonicity can fail), and its value lies in
`[0, 99]` for every input. -/
theorem getPercentage_monotone_positive_and_range :
    (∀ (w : WeeklyStats) (dayRand : ℤ) (u₁ u₂ : ℚ), 0 < u₁ → u₁ ≤ u₂ →
      GetPercentage { w with weeklyUtilization := u₁ } dayRand ≤
        GetPercentage { w with weeklyUtilization := u₂ } dayRand) ∧
    (∀ (w : WeeklyStats) (dayRand : ℤ),
      0 ≤ GetPercentage w dayRand ∧ GetPercentage w dayRand ≤ 99) := by
  refine ⟨?_, GetPercentage_mem_range⟩
  intro w dayRand u₁ u₂ h1 h12
  by_cases hapi : w.hasAPIData = true
  · rw [GetPercentage_api_eq { w with weeklyUtilization := u₁ } dayRand hapi h1]
    rw [GetPercentage_api_eq { w with weeklyUtilization := u₂ } dayRand hapi (lt_of_lt_of_le h1 h12)]
    have hm : goTrunc (({ w with weeklyUtilization := u₁ } : WeeklyStats).weeklyUtilization * 100)
        ≤ goTrunc (({ w with weeklyUtilization := u₂ } : WeeklyStats).weeklyUtilization * 100) := by
      apply goTrunc_mono
      · show 0 ≤ u₁ * 100
        positivity
      · show u₁ * 100 ≤ u₂ * 100
        nlinarith
    omega
  · simp only [GetPercentage, eq_false hapi, false_and, if_false]
    exact le_refl _

/-- Witness for C6 at utilizations 1 and 2 over the zero-valued base
stats. -/
theorem getPercentage_monotone_positive_and_range_witness :
    GetPercentage { wkBase with weeklyUtilization := (1 : ℚ) } 0 ≤
      GetPercentage { wkBase with weeklyUtilization := (2 : ℚ) } 0 :=
  getPercentage_monotone_positive_and_range.1 wkBase 0 1 2 (by decide) (by decide)

/-! ## Claim C5 -/

/-- C5 counterexample: two weekly stats carrying the same API snapshot
(weekly utilization 0, identical resets and status) but different cached
token totals yield different percentages — the reported percentage is not
exclusively API-derived whenever `HasAPIData` is set. -/
theorem getPercentage_cache_leak_counterexample :
    wkCacheZeroTok.hasAPIData = true ∧ wkCachePro.hasAPIData = true ∧
    wkCacheZeroTok.weeklyUtilization = wkCachePro.weeklyUtilization ∧
    wkCacheZeroTok.fiveHourUtilization = wkCachePro.fiveHourUtilization ∧
    wkCacheZeroTok.fiveHourReset = wkCachePro.fiveHourReset ∧
    wkCacheZeroTok.weeklyReset = wkCachePro.weeklyReset ∧
    wkCacheZeroTok.rateLimitStatus = wkCachePro.rateLimitStatus ∧
    wkCacheZeroTok.representativeClaim = wkCachePro.representativeClaim ∧
    GetPercentage wkCacheZeroTok 0 ≠ GetPercentage wkCachePro 0 := by
  refine ⟨rfl, rfl, rfl, rfl, rfl, rfl, rfl, rfl, ?_⟩
  decide

/-- C5 (amended): when a rate-limit snapshot was obtained and its weekly
utilization is positive, the reported percentage is a function of the API
utilization alone (cache fields and the placeholder are irrelevant); the
reset times, utilizations and status always come from the snapshot, while
the per-model token totals, total count and subscription fields are left
untouched by the snapshot application — no field blends the two sources.
When the snapshot's weekly utilization is 0 the percentage falls back to
the cache estimate. -/
theorem api_snapshot_field_separation :
    (∀ (w₁ w₂ : WeeklyStats) (dayRand₁ dayRand₂ : ℤ),
      w₁.hasAPIData = true → w₂.hasAPIData = true →
      w₁.weeklyUtilization = w₂.weeklyUtilization → 0 < w₁.weeklyUtilization →
      GetPercentage w₁ dayRand₁ = GetPercentage w₂ dayRand₂) ∧
    (∀ (w : WeeklyStats) (r : RateLimitData),
      (applyRateLimits w r).tokensByModel = w.tokensByModel ∧
      (applyRateLimits w r).totalTokens = w.totalTokens ∧
      (applyRateLimits w r).subscriptionType = w.subscriptionType ∧
      (applyRateLimits w r).rateLimitTier = w.rateLimitTier ∧
      (applyRateLimits w r).fiveHourReset = r.fiveHourReset ∧
      (applyRateLimits w r).weeklyReset = r.weeklyReset ∧
      (applyRateLimits w r).fiveHourUtilization = r.fiveHourUtilization ∧
      (applyRateLimits w r).weeklyUtilization = r.weeklyUtilization ∧
      (applyRateLimits w r).rateLimitStatus = r.status ∧
      (applyRateLimits w r).representativeClaim = r.representativeClaim ∧
      (applyRateLimits w r).hasAPIData = true) := by
  constructor
  · intro w₁ w₂ dayRand₁ dayRand₂ h1 h2 h3 h4
    rw [GetPercentage_api_eq w₁ dayRand₁ h1 h4, GetPercentage_api_eq w₂ dayRand₂ h2 (h3 ▸ h4)]
    rw [h3]
  · intro w r
    exact ⟨rfl, rfl, rfl, rfl, rfl, rfl, rfl, rfl, rfl, rfl, rfl⟩

/-- Witness for C5 on two stats sharing utilization 2 but with different
token totals and placeholder values. -/
theorem api_snapshot_field_separation_witness :
    GetPercentage wkApiTwo 0 = GetPercentage { wkApiTwo with totalTokens := 99999 } 7 :=
  api_snapshot_field_separation.1 wkApiTwo { wkApiTwo with totalTokens := 99999 } 0 7
    rfl rfl rfl (by decide)

/-! ## Claim C7 -/

/-- C7: for every parsed usage response, the limiting-window indicator is
"five_hour" exactly when the stored five-hour utilization strictly exceeds
the seven-day utilization (a tie yields "seven_day"), and the status is
"throttled" exactly when either window's utilization is at least 1.0, else
"allowed". -/
theorem parseUsageResponse_limiting_and_status (now : ℤ) (u : UsageResponse) :
    ((parseUsageResponse now u).representativeClaim = "five_hour" ↔
      (parseUsageResponse now u).fiveHourUtilization >
        (parseUsageResponse now u).weeklyUtilization) ∧
    ((parseUsageResponse now u).representativeClaim = "seven_day" ↔
      ¬ (parseUsageResponse now u).fiveHourUtilization >
        (parseUsageResponse now u).weeklyUtilization) ∧
    ((parseUsageResponse now u).status = "throttled" ↔
      ((parseUsageResponse now u).fiveHourUtilization ≥ 1 ∨
        (parseUsageResponse now u).weeklyUtilization ≥ 1)) ∧
    ((parseUsageResponse now u).status = "allowed" ↔
      ¬ ((parseUsageResponse now u).fiveHourUtilization ≥ 1 ∨
        (parseUsageResponse now u).weeklyUtilization ≥ 1)) := by
  by_cases h1 : u.fiveHour.utilization / 100 > u.sevenDay.utilization / 100 <;>
    by_cases h2 : u.fiveHour.utilization / 100 ≥ 1 ∨ u.sevenDay.utilization / 100 ≥ 1 <;>
    simp [parseUsageResponse, h1, h2]

/-! ## Claim C8 -/

/-- C8: for any current instant, the week bounds start on a Monday at
00:00:00.000000000 UTC and end exactly 6 days plus 23:59:59.999999999
later, and the instant itself lies inside the window (Go numbers Monday
as weekday 1). -/
theorem getWeekBounds_monday_window (now : GoTime) (h0 : 0 ≤ now.nano)
    (h1 : now.nano < 86400000000000) :
    goWeekday (GetWeekBounds now).1.days = 1 ∧
    (GetWeekBounds now).1.nano = 0 ∧
    (GetWeekBounds now).2.days = (GetWeekBounds now).1.days + 6 ∧
    (GetWeekBounds now).2.nano = 86399999999999 ∧
    goTimeLe (GetWeekBounds now).1 now = true ∧
    goTimeLe now (GetWeekBounds now).2 = true := by
  simp only [GetWeekBounds, goWeekday, goTimeLe, decide_eq_true_eq]
  split_ifs with h <;> refine ⟨?_, by trivial, by trivial, by trivial, ?_, ?_⟩ <;> omega

/-- Witness for C8 at the instant 2026-10-11, 12345 ns after midnight UTC
(day number 20737, a Sunday). -/
theorem getWeekBounds_monday_window_witness :
    goWeekday (GetWeekBounds ⟨20737, 12345⟩).1.days = 1 ∧
    (GetWeekBounds ⟨20737, 12345⟩).1.nano = 0 ∧
    (GetWeekBounds ⟨20737, 12345⟩).2.days = (GetWeekBounds ⟨20737, 12345⟩).1.days + 6 ∧
    (GetWeekBounds ⟨20737, 12345⟩).2.nano = 86399999999999 ∧
    goTimeLe (GetWeekBounds ⟨20737, 12345⟩).1 ⟨20737, 12345⟩ = true ∧
    goTimeLe ⟨20737, 12345⟩ (GetWeekBounds ⟨20737, 12345⟩).2 = true :=
  getWeekBounds_monday_window ⟨20737, 12345⟩ (by decide) (by decide)

/-! ## Claim C9 -/

/-- A non-contributing entry (unparsable date or date outside the window)
leaves the aggregation accumulator untouched. -/
theorem weeklyStep_skip (ws we : GoTime) (acc : List (String × ℤ) × ℤ)
    (daily : DailyModelTokens) (h : entryContributes ws we daily = false) :
    weeklyStep ws we acc daily = acc := by
  unfold entryContributes at h
  unfold weeklyStep
  cases hp : goParseDate daily.date with
  | none => rfl
  | some ymd =>
    obtain ⟨y, m, d⟩ := ymd
    rw [hp] at h
    simp only [Bool.not_eq_false', Bool.or_eq_true] at h
    dsimp only
    rw [if_pos h]

/-- Filtering out non-contributing entries does not change the fold. -/
theorem foldl_weeklyStep_filter (ws we : GoTime) (l : List DailyModelTokens) :
    ∀ acc : List (String × ℤ) × ℤ,
      l.foldl (weeklyStep ws we) acc =
        (l.filter (entryContributes ws we)).foldl (weeklyStep ws we) acc := by
  induction l with
  | nil => intro acc; rfl
  | cons a l ih =>
    intro acc
    by_cases h : entryContributes ws we a = true
    · simp only [List.foldl_cons, List.filter_cons, h, if_true]
      exact ih _
    · have hf : entryContributes ws we a = false := by
        revert h; cases entryContributes ws we a <;> simp
      simp only [List.foldl_cons, List.filter_cons, hf, Bool.false_eq_true, if_false]
      rw [weeklyStep_skip ws we acc a hf]
      exact ih _

/-- C9: in the weekly aggregation, entries whose date fails to parse or
lies outside the week window contribute nothing to the per-model totals or
the total token count, and never abort the aggregation: the computed stats
are exactly those of the well-formed in-window entries. -/
theorem calculateWeeklyStats_skips_noncontributing (now : GoTime) (cache : StatsCache)
    (creds : Option Credentials) :
    CalculateWeeklyStats now (some cache) creds =
      CalculateWeeklyStats now
        (some ⟨cache.dailyModelTokens.filter
          (entryContributes (GetWeekBounds now).1 (GetWeekBounds now).2)⟩) creds := by
  simp only [CalculateWeeklyStats]
  rw [foldl_weeklyStep_filter]

/-! ## Claim C3 -/

/-- Auxiliary induction for the retry ceiling: starting `n` attempts below
the ceiling against a usage endpoint that answers 401 on the next `n + 1`
calls and a token endpoint that keeps succeeding with a non-empty access
token, the chain performs exactly `n` further refreshes and stops with the
max-retries error. -/
theorem fetch_auth_exhausted_aux (now : ℤ) (net : Network) :
    ∀ (n : ℕ) (c : Client) (attempt uIdx rIdx rCount : ℕ),
      attempt + n = maxRetries →
      c.token ≠ "" → c.refreshToken ≠ "" →
      (∀ i, i ≤ n → net.usage (uIdx + i) = .unauthorized) →
      (∀ j, ∃ resp, net.refresh j = .ok resp ∧ resp.accessToken ≠ "") →
      (fetchRateLimitsWithRetry now net c attempt uIdx rIdx rCount).result =
        .error (.maxRetriesExceeded maxRetries) ∧
      (fetchRateLimitsWithRetry now net c attempt uIdx rIdx rCount).refreshAttempts =
        rCount + n := by
  intro n
  induction n with
  | zero =>
    intro c attempt uIdx rIdx rCount hat htok href h401 hrefresh
    have hu : net.usage uIdx = .unauthorized := by simpa using h401 0 (by omega)
    rw [fetchRateLimitsWithRetry.eq_def, if_neg htok, hu]
    dsimp only
    rw [dif_pos (show maxRetries ≤ attempt by omega)]
    exact ⟨rfl, by simp⟩
  | succ n ih =>
    intro c attempt uIdx rIdx rCount hat htok href h401 hrefresh
    obtain ⟨resp, hresp, hrtok⟩ := hrefresh rIdx
    have hu : net.usage uIdx = .unauthorized := by simpa using h401 0 (by omega)
    have hat' : ¬ maxRetries ≤ attempt := by simp only [maxRetries] at *; omega
    rw [fetchRateLimitsWithRetry.eq_def, if_neg htok, hu]
    dsimp only
    rw [dif_neg hat', if_neg href, hresp]
    simp only [RefreshAccessToken, if_neg href]
    have h401' : ∀ i, i ≤ n → net.usage (uIdx + 1 + i) = .unauthorized := by
      intro i hi
      rw [show uIdx + 1 + i = uIdx + (i + 1) by omega]
      exact h401 (i + 1) (by omega)
    by_cases hrot : resp.refreshToken ≠ "" ∧ resp.refreshToken ≠ c.refreshToken
    · rw [if_pos hrot]
      dsimp only
      have := ih ⟨resp.accessToken, resp.refreshToken⟩ (attempt + 1) (uIdx + 1) (rIdx + 1)
        (rCount + 1) (by omega) hrtok hrot.1 h401' hrefresh
      exact ⟨this.1, by rw [this.2]; omega⟩
    · rw [if_neg hrot]
      dsimp only
      have := ih ⟨resp.accessToken, c.refreshToken⟩ (attempt + 1) (uIdx + 1) (rIdx + 1)
        (rCount + 1) (by omega) hrtok href h401' hrefresh
      exact ⟨this.1, by rw [this.2]; omega⟩

/-- C3: when the usage endpoint answers unauthorized on its first six calls
(in particular six 401s before any would-be success) and the token
endpoint keeps succeeding, `FetchRateLimits` performs exactly 5
token-refresh attempts — never a sixth — and then fails with the
max-retries-exceeded (auth-exhausted) error, aborting the call chain. -/
theorem fetchRateLimits_auth_exhausted_after_five (now : ℤ) (net : Network) (c : Client)
    (htok : c.token ≠ "") (href : c.refreshToken ≠ "")
    (h401 : ∀ i, i < 6 → net.usage i = .unauthorized)
    (hrefresh : ∀ j, ∃ resp, net.refresh j = .ok resp ∧ resp.accessToken ≠ "") :
    (FetchRateLimits now net c).result = .error (.maxRetriesExceeded maxRetries) ∧
    (FetchRateLimits now net c).refreshAttempts = 5 := by
  have h := fetch_auth_exhausted_aux now net 5 c 0 0 0 0 rfl htok href
    (fun i hi => by simpa using h401 i (by omega)) hrefresh
  refine ⟨h.1, ?_⟩
  show (fetchRateLimitsWithRetry now net c 0 0 0 0).refreshAttempts = 5
  rw [h.2]

/-- Witness for C3: a usage endpoint that always answers 401 and a token
endpoint that always succeeds. -/
theorem fetchRateLimits_auth_exhausted_witness :
    (FetchRateLimits 0 exNet exClient).result = .error (.maxRetriesExceeded maxRetries) ∧
    (FetchRateLimits 0 exNet exClient).refreshAttempts = 5 :=
  fetchRateLimits_auth_exhausted_after_five 0 exNet exClient (by decide) (by decide)
    (fun i _ => rfl) (fun j => ⟨exRefreshResp, rfl, by decide⟩)

/-! ## Claim C1 -/

/-- C1 (evaluation at the failing input): on a successful token-refresh
exchange whose response carries a refresh token different from the one
just used, the source `RefreshAccessToken` adopts the rotated pair in
memory and writes the `NEW_REFRESH_TOKEN_WARNING.txt` file next to the
binary, but does not persist the new refresh token through
`UpdateRefreshToken` and invokes no rotation callback — no such callback
mechanism exists in `internal/api/client.go`, although the app
orchestration calls `SetRefreshTokenCallback` and the spec requires the
persistence.  The effects record makes the divergence explicit. -/
theorem refreshRotation_not_persisted :
    RefreshAccessToken rotClient rotResponse =
      .ok ("access-new", ⟨"access-new", "refresh-new"⟩,
        { updatedCredentialsFile := false, rotationCallbackInvoked := false,
          wroteWarningFile := true }) := by
  rfl

/-! ## Claim C2 -/

/-- Looking up the inserted key finds the inserted value. -/
theorem objGet_objInsert_self (fs : List (String × Json)) (k : String) (v : Json) :
    objGet (objInsert fs k v) k = some v := by
  induction fs with
  | nil => simp [objInsert, objGet]
  | cons head tail ih =>
    obtain ⟨a, b⟩ := head
    by_cases h1 : k = a
    · subst h1
      simp [objInsert, objGet]
    · by_cases h2 : strLtB k a = true
      · simp [objInsert, objGet, h1, h2]
      · simp [objInsert, objGet, h1, h2, Ne.symm h1, ih]

/-- Inserting one key leaves every other key's lookup unchanged. -/
theorem objGet_objInsert_ne (fs : List (String × Json)) (k q : String) (v : Json)
    (hq : q ≠ k) : objGet (objInsert fs k v) q = objGet fs q := by
  have hkq : ¬ k = q := fun hc => hq hc.symm
  induction fs with
  | nil => simp [objInsert, objGet, hkq]
  | cons head tail ih =>
    obtain ⟨a, b⟩ := head
    by_cases h1 : k = a
    · subst h1
      simp [objInsert, objGet, hkq]
    · by_cases h2 : strLtB k a = true
      · simp [objInsert, objGet, h1, h2, hkq]
      · simp [objInsert, objGet, h1, h2, hkq, ih]

/-- C2 counterexample: on `credsOrig` — a valid credentials document whose
tokens are separated by whitespace — the update succeeds, but the new file
content is a canonical re-serialisation of the parsed tree: it cannot be
obtained from the original bytes by replacing only the refresh-token leaf,
so the untouched top-level keys are not byte-identical to the original
file content. -/
theorem updateRefreshToken_not_byte_identical :
    UpdateRefreshTokenFile credsOrig "NEW" = .ok credsOut ∧
    existsLeafReplacement credsOrig.data "\"old\"".data "\"NEW\"".data credsOut.data = false :=
  ⟨rfl, rfl⟩

/-- C2 (amended): at the level of the parsed document, `UpdateRefreshToken`
changes exactly the refresh-token leaf: the updated document keeps every
other top-level key's value and every sibling OAuth field JSON-identical,
and sets the refresh-token leaf to the new value; the file bytes, however,
are a canonical re-serialisation (compact, keys sorted) rather than a
byte-identical copy. -/
theorem updateRefreshToken_frame (fields oauthFields : List (String × Json)) (newTok : String)
    (h : objGet fields "claudeAiOauth" = some (.obj oauthFields)) :
    ∃ oauthFields' : List (String × Json),
      UpdateRefreshTokenDoc (.obj fields) newTok =
        .ok (.obj (objInsert fields "claudeAiOauth" (.obj oauthFields'))) ∧
      objGet oauthFields' "refreshToken" = some (.str newTok) ∧
      (∀ k, k ≠ "refreshToken" → objGet oauthFields' k = objGet oauthFields k) ∧
      (∀ k, k ≠ "claudeAiOauth" →
        objGet (objInsert fields "claudeAiOauth" (.obj oauthFields')) k = objGet fields k) ∧
      objGet (objInsert fields "claudeAiOauth" (.obj oauthFields')) "claudeAiOauth" =
        some (.obj oauthFields') := by
  refine ⟨objInsert oauthFields "refreshToken" (.str newTok), ?_, ?_, ?_, ?_, ?_⟩
  · simp only [UpdateRefreshTokenDoc, h]
  · exact objGet_objInsert_self oauthFields "refreshToken" (.str newTok)
  · intro k hk
    exact objGet_objInsert_ne oauthFields "refreshToken" k (.str newTok) hk
  · intro k hk
    exact objGet_objInsert_ne fields "claudeAiOauth" k _ hk
  · exact objGet_objInsert_self fields "claudeAiOauth" _

/-- Witness for C2 on the parsed `credsOrig` document. -/
theorem updateRefreshToken_frame_witness :
    ∃ oauthFields' : List (String × Json),
      UpdateRefreshTokenDoc (.obj credsFields) "NEW" =
        .ok (.obj (objInsert credsFields "claudeAiOauth" (.obj oauthFields'))) ∧
      objGet oauthFields' "refreshToken" = some (.str "NEW") ∧
      (∀ k, k ≠ "refreshToken" → objGet oauthFields' k = objGet credsOAuthFields k) ∧
      (∀ k, k ≠ "claudeAiOauth" →
        objGet (objInsert credsFields "claudeAiOauth" (.obj oauthFields')) k =
          objGet credsFields k) ∧
      objGet (objInsert credsFields "claudeAiOauth" (.obj oauthFields')) "claudeAiOauth" =
        some (.obj oauthFields') :=
  updateRefreshToken_frame credsFields credsOAuthFields "NEW" rfl

end ClaudeUsage
